import Mathlib

/-!
XPMP2 remote protocol (`XPMPRemote.h`): wire layout and value codec.

A shallow embedding of the network data definitions of `XPMPRemote.h`.

* Structures are packed (`#pragma pack(1)` / `__attribute__((__packed__))`); their
  sizes are computed from the declared members, bit-fields sharing bytes.
* `size_t` is an unsigned 64-bit integer: values are `Nat` below `2^64` and
  subtraction wraps modulo `2^64`.
* `float` / `double` quantities are modelled by exact rationals (`ℚ`); decimal
  literals of the source are the same decimal literals here.  Conversions from
  a floating value to an integer type truncate toward zero and are undefined
  (modelled as `none`) when the truncated value does not fit the target type.
-/

namespace XPMP2

/-! ## Integer limits and helper conversions (`<cstdint>`, `<cmath>`, `<algorithm>`) -/

/-- Number of value bits of `size_t`. -/
def SIZE_BITS : Nat := 64

/-- Value of `UINT8_MAX`. -/
def UINT8_MAX : Nat := 255

/-- Value of `INT16_MAX`. -/
def INT16_MAX : Int := 32767

/-- Value of `INT16_MIN`. -/
def INT16_MIN : Int := -32768

/-- Value of `UINT16_MAX`. -/
def UINT16_MAX : Nat := 65535

/-- Unsigned `size_t` subtraction `a - b`, which wraps modulo `2^64`. -/
def sizeSub (a b : Nat) : Nat := (a % 2 ^ SIZE_BITS + 2 ^ SIZE_BITS - b % 2 ^ SIZE_BITS) % 2 ^ SIZE_BITS

/-- Truncation toward zero, the rounding of a floating-to-integer conversion. -/
def truncZero (q : ℚ) : Int := if 0 ≤ q then ⌊q⌋ else ⌈q⌉

/-- Conversion `std::uint8_t(x)` of a floating value: truncates toward zero; the
behaviour is undefined (`none`) if the truncated value is not in `0..255`. -/
def castUInt8 (q : ℚ) : Option Nat :=
  if 0 ≤ truncZero q ∧ truncZero q ≤ (UINT8_MAX : Int) then some (truncZero q).toNat else none

/-- Conversion `std::int16_t(x)` of a floating value: truncates toward zero; the
behaviour is undefined (`none`) if the truncated value is not in `-32768..32767`. -/
def castInt16 (q : ℚ) : Option Int :=
  if INT16_MIN ≤ truncZero q ∧ truncZero q ≤ INT16_MAX then some (truncZero q) else none

/-- Conversion `std::int16_t(n)` of an integer (`long`) value: reduces modulo `2^16`. -/
def wrapInt16 (z : Int) : Int := (z + 32768) % 65536 - 32768

/-- The function `std::lround`: nearest integer, halfway cases away from zero
(the finite range of `long` is not modelled). -/
def lround (q : ℚ) : Int := if 0 ≤ q then ⌊q + 1 / 2⌋ else ⌈q - 1 / 2⌉

/-- The function `std::clamp(v, lo, hi)`; its precondition is `lo ≤ hi`. -/
def clamp (v lo hi : ℚ) : ℚ := if v < lo then lo else if hi < v then hi else v

/-! ## Packed layout -/

/-- A member declaration of a packed structure. -/
inductive Member where
  /-- an ordinary member occupying `n` whole bytes -/
  | bytes (n : Nat)
  /-- a bit-field of `n` bits -/
  | bits (n : Nat)
  deriving Repr, DecidableEq

/-- Bit offset of the end of a member placed after bit offset `off`: an ordinary
member starts at the next byte boundary, a bit-field continues at the next bit. -/
def Member.place (off : Nat) : Member → Nat
  | .bytes n => (off + 7) / 8 * 8 + 8 * n
  | .bits n => off + n

/-- Size in bytes (`sizeof`) of a packed structure with a base class of `base`
bytes followed by the members `ms`. -/
def sizeofPacked (base : Nat) (ms : List Member) : Nat :=
  (ms.foldl Member.place (8 * base) + 7) / 8

/-- Byte offset at which the member with index `i` starts (for ordinary members). -/
def offsetOf (base : Nat) (ms : List Member) (i : Nat) : Nat :=
  ((ms.take i).foldl Member.place (8 * base) + 7) / 8

/-- Modelled from the spec: `V_COUNT`, the number of animation dataRef values, is
declared in another header; the source annotates its use with `// 42` and the
size assertion reads `94+42`. -/
def V_COUNT : Nat := 42

/-- Modelled from the spec: `sizeof(XPMPPlaneID)`; the type is declared in another
header, the Removal message has "each element a 32-bit id". -/
def sizeof_XPMPPlaneID : Nat := 4

/-- Members of `struct RemoteMsgBaseTy`. -/
def RemoteMsgBaseTy.members : List Member :=
  [ .bits 4      -- RemoteMsgTy  msgTy  : 4
  , .bits 4      -- std::uint8_t msgVer : 4
  , .bytes 1     -- std::uint8_t filler1
  , .bytes 2     -- std::uint16_t pluginId
  , .bytes 4 ]   -- std::uint32_t filler2

/-- Value of `sizeof(RemoteMsgBaseTy)`. -/
def RemoteMsgBaseTy.sizeof : Nat := sizeofPacked 0 RemoteMsgBaseTy.members

/-- Members of `struct RemoteMsgSettingsTy` (after the inherited header). -/
def RemoteMsgSettingsTy.members : List Member :=
  [ .bytes 16    -- char name[16]
  , .bytes 4     -- float maxLabelDist
  , .bytes 4     -- char defaultIcao[4]
  , .bytes 4     -- char carIcaoType[4]
  , .bits 3      -- std::uint8_t logLvl :3
  , .bits 1      -- bool bLogMdlMatch :1
  , .bits 1      -- bool bObjReplDataRefs :1
  , .bits 1      -- bool bObjReplTextures :1
  , .bits 1      -- bool bLabelCutOffAtVisibility :1
  , .bits 1      -- bool bMapEnabled :1
  , .bits 1      -- bool bMapLabels :1
  , .bits 1      -- bool bHaveTCASControl :1
  , .bytes 2 ]   -- std::uint16_t filler

/-- Value of `sizeof(RemoteMsgSettingsTy)`, header included. -/
def RemoteMsgSettingsTy.sizeof : Nat :=
  sizeofPacked RemoteMsgBaseTy.sizeof RemoteMsgSettingsTy.members

/-- Members of `struct RemoteAcDetailTy`. -/
def RemoteAcDetailTy.members : List Member :=
  [ .bytes 4     -- std::uint32_t modeS_id
  , .bytes 4     -- char icaoType[4]
  , .bytes 4     -- char icaoOp[4]
  , .bytes 20    -- char sShortId[20]
  , .bytes 2     -- std::uint16_t pkgHash
  , .bytes 23    -- char label[23]
  , .bytes 3     -- std::uint8_t labelCol[3]
  , .bytes 4     -- float alt_ft
  , .bytes 8     -- double lat
  , .bytes 8     -- double lon
  , .bytes 2     -- std::int16_t pitch
  , .bytes 2     -- std::uint16_t heading
  , .bytes 2     -- std::int16_t roll
  , .bytes 2     -- std::int16_t aiPrio
  , .bytes 2     -- std::uint16_t dTime
  , .bits 1      -- bool bValid : 1
  , .bits 1      -- bool bVisible : 1
  , .bytes 3     -- std::uint8_t filler[3]
  , .bytes V_COUNT ]  -- std::uint8_t v[XPMP2::V_COUNT]

/-- Value of `sizeof(RemoteAcDetailTy)`. -/
def RemoteAcDetailTy.sizeof : Nat := sizeofPacked 0 RemoteAcDetailTy.members

/-- Members of `struct RemoteAcPosUpdateTy`. -/
def RemoteAcPosUpdateTy.members : List Member :=
  [ .bytes 4     -- std::uint32_t modeS_id
  , .bytes 2     -- std::int16_t dLat
  , .bytes 2     -- std::int16_t dLon
  , .bytes 2     -- std::int16_t dAlt_ft
  , .bytes 2     -- std::uint16_t dTime
  , .bytes 2     -- std::int16_t pitch
  , .bytes 2     -- std::uint16_t heading
  , .bytes 2     -- std::int16_t roll
  , .bytes 2 ]   -- std::uint16_t filler1

/-- Value of `sizeof(RemoteAcPosUpdateTy)`. -/
def RemoteAcPosUpdateTy.sizeof : Nat := sizeofPacked 0 RemoteAcPosUpdateTy.members

/-- Value of `sizeof(RemoteMsgAcDetailTy)`: header plus `arr[1]`. -/
def RemoteMsgAcDetailTy.sizeof : Nat :=
  sizeofPacked RemoteMsgBaseTy.sizeof [.bytes (1 * RemoteAcDetailTy.sizeof)]

/-- Value of `sizeof(RemoteMsgAcPosUpdateTy)`: header plus `arr[1]`. -/
def RemoteMsgAcPosUpdateTy.sizeof : Nat :=
  sizeofPacked RemoteMsgBaseTy.sizeof [.bytes (1 * RemoteAcPosUpdateTy.sizeof)]

/-- Value of `sizeof(RemoteMsgAcRemoveTy)`: header plus `arr[1]` of plane ids. -/
def RemoteMsgAcRemoveTy.sizeof : Nat :=
  sizeofPacked RemoteMsgBaseTy.sizeof [.bytes (1 * sizeof_XPMPPlaneID)]

/-! ## Element counts of the array messages -/

/-- Transcription of `RemoteMsgAcDetailTy::NumElem`:
`(_msgLen - sizeof(RemoteMsgBaseTy)) / sizeof(RemoteAcDetailTy)` in `size_t`. -/
def RemoteMsgAcDetailTy.NumElem (_msgLen : Nat) : Nat :=
  sizeSub _msgLen RemoteMsgBaseTy.sizeof / RemoteAcDetailTy.sizeof

/-- Transcription of `RemoteMsgAcPosUpdateTy::NumElem`:
`(_msgLen - sizeof(RemoteMsgBaseTy)) / sizeof(RemoteAcPosUpdateTy)` in `size_t`. -/
def RemoteMsgAcPosUpdateTy.NumElem (_msgLen : Nat) : Nat :=
  sizeSub _msgLen RemoteMsgBaseTy.sizeof / RemoteAcPosUpdateTy.sizeof

/-- Transcription of `RemoteMsgAcRemoveTy::NumElem`:
`(_msgLen - sizeof(RemoteMsgBaseTy)) / sizeof(XPMPPlaneID)` in `size_t`. -/
def RemoteMsgAcRemoveTy.NumElem (_msgLen : Nat) : Nat :=
  sizeSub _msgLen RemoteMsgBaseTy.sizeof / sizeof_XPMPPlaneID

/-! ## DataRef packing -/

/-- Definition for how to map dataRef values to an integer range of 8 bits
(`struct RemoteDataRefPackTy`). -/
structure RemoteDataRefPackTy where
  /-- minimum transferred value -/
  minV : ℚ := 0
  /-- range of transferred value = maxV - minV -/
  range : ℚ := 0
  deriving Repr, DecidableEq

/-- Constructor `RemoteDataRefPackTy(_min, _max)`: sets `minV(_min)` and
`range(_max - _min)`, then `assert(range != 0.0f)`; a failed assertion is `none`. -/
def RemoteDataRefPackTy.ctor (_min _max : ℚ) : Option RemoteDataRefPackTy :=
  let self : RemoteDataRefPackTy := { minV := _min, range := _max - _min }
  if self.range ≠ 0 then some self else none

/-- Transcription of `RemoteDataRefPackTy::pack`:
`std::uint8_t(std::clamp<float>(f-minV,0.0f,range) * UINT8_MAX / range)`.
With `range = 0` the quotient is infinite or NaN and the conversion undefined. -/
def RemoteDataRefPackTy.pack (self : RemoteDataRefPackTy) (f : ℚ) : Option Nat :=
  if self.range = 0 then none
  else castUInt8 (clamp (f - self.minV) 0 self.range * (UINT8_MAX : ℚ) / self.range)

/-- Transcription of `RemoteDataRefPackTy::unpack`: `minV + range*float(i)/255.0f`. -/
def RemoteDataRefPackTy.unpack (self : RemoteDataRefPackTy) (i : Nat) : ℚ :=
  self.minV + self.range * (i : ℚ) / 255

/-! ## Aircraft records: pitch and roll accessors -/

/-- Data members of `struct RemoteAcDetailTy`. -/
structure RemoteAcDetailTy where
  modeS_id : Nat
  icaoType : List Nat
  icaoOp : List Nat
  sShortId : List Nat
  pkgHash : Nat
  label : List Nat
  labelCol : List Nat
  alt_ft : ℚ
  lat : ℚ
  lon : ℚ
  pitch : Int
  heading : Nat
  roll : Int
  aiPrio : Int
  dTime : Nat
  bValid : Bool
  bVisible : Bool
  filler : List Nat
  v : List Nat
  deriving Repr, DecidableEq

/-- Transcription of `RemoteAcDetailTy::SetPitch`: `pitch = std::int16_t(_p*100.0f)`. -/
def RemoteAcDetailTy.SetPitch (self : RemoteAcDetailTy) (_p : ℚ) : Option RemoteAcDetailTy :=
  (castInt16 (_p * 100)).map fun p => { self with pitch := p }

/-- Transcription of `RemoteAcDetailTy::GetPitch`: `float(pitch) / 100.0f`. -/
def RemoteAcDetailTy.GetPitch (self : RemoteAcDetailTy) : ℚ := (self.pitch : ℚ) / 100

/-- Transcription of `RemoteAcDetailTy::SetRoll`:
`roll = std::int16_t(std::lround(_r*100.0f))`. -/
def RemoteAcDetailTy.SetRoll (self : RemoteAcDetailTy) (_r : ℚ) : RemoteAcDetailTy :=
  { self with roll := wrapInt16 (lround (_r * 100)) }

/-- Transcription of `RemoteAcDetailTy::GetRoll`: `float(roll) / 100.0f`. -/
def RemoteAcDetailTy.GetRoll (self : RemoteAcDetailTy) : ℚ := (self.roll : ℚ) / 100

/-- Data members of `struct RemoteAcPosUpdateTy`. -/
structure RemoteAcPosUpdateTy where
  modeS_id : Nat
  dLat : Int
  dLon : Int
  dAlt_ft : Int
  dTime : Nat
  pitch : Int
  heading : Nat
  roll : Int
  filler1 : Nat
  deriving Repr, DecidableEq

/-- Default constructor `RemoteAcPosUpdateTy()`: `memset(this,0,sizeof(*this))`. -/
def RemoteAcPosUpdateTy.zero : RemoteAcPosUpdateTy :=
  { modeS_id := 0, dLat := 0, dLon := 0, dAlt_ft := 0, dTime := 0,
    pitch := 0, heading := 0, roll := 0, filler1 := 0 }

/-- Transcription of `RemoteAcPosUpdateTy::SetPitch`: `pitch = std::int16_t(_p*100.0f)`. -/
def RemoteAcPosUpdateTy.SetPitch (self : RemoteAcPosUpdateTy) (_p : ℚ) :
    Option RemoteAcPosUpdateTy :=
  (castInt16 (_p * 100)).map fun p => { self with pitch := p }

/-- Transcription of `RemoteAcPosUpdateTy::GetPitch`: `float(pitch) / 100.0f`. -/
def RemoteAcPosUpdateTy.GetPitch (self : RemoteAcPosUpdateTy) : ℚ := (self.pitch : ℚ) / 100

/-- Transcription of `RemoteAcPosUpdateTy::SetRoll`:
`roll = std::int16_t(std::lround(_r*100.0f))`. -/
def RemoteAcPosUpdateTy.SetRoll (self : RemoteAcPosUpdateTy) (_r : ℚ) : RemoteAcPosUpdateTy :=
  { self with roll := wrapInt16 (lround (_r * 100)) }

/-- Transcription of `RemoteAcPosUpdateTy::GetRoll`: `float(roll) / 100.0f`. -/
def RemoteAcPosUpdateTy.GetRoll (self : RemoteAcPosUpdateTy) : ℚ := (self.roll : ℚ) / 100

/-- An all-zero `RemoteAcDetailTy` record with empty arrays, as a sample value. -/
def RemoteAcDetailTy.zero : RemoteAcDetailTy :=
  { modeS_id := 0, icaoType := [], icaoOp := [], sShortId := [], pkgHash := 0, label := [],
    labelCol := [], alt_ft := 0, lat := 0, lon := 0, pitch := 0, heading := 0, roll := 0,
    aiPrio := 0, dTime := 0, bValid := false, bVisible := false, filler := [], v := [] }

/-! ## Position update resolutions -/

/-- resolution of degree updates -/
def REMOTE_DEGREE_RES : ℚ := 0.00000001

/-- maximum degree difference that can be represented in a pos update msg -/
def REMOTE_MAX_DIFF_DEGREE : ℚ := REMOTE_DEGREE_RES * (INT16_MAX : ℚ)

/-- resolution of altitude[ft] updates -/
def REMOTE_ALT_FT_RES : ℚ := 0.01

/-- maximum altitude[ft] difference that can be represented in a pos update msg -/
def REMOTE_MAX_DIFF_ALT_FT : ℚ := REMOTE_ALT_FT_RES * (INT16_MAX : ℚ)

/-- resolution of time difference -/
def REMOTE_TIME_RES : ℚ := 0.0001

/-- maximum time difference that can be represented in a pos update msg -/
def REMOTE_MAX_DIFF_TIME : ℚ := REMOTE_TIME_RES * (UINT16_MAX : ℚ)

/-- The unit the header documents for `RemoteAcPosUpdateTy`, `dLat` and `dLon`:
"deltas to last msg are given in 0.0000001 degree lat/lon", "[0.0000001 degrees]". -/
def DOC_DEGREE_UNIT : ℚ := 0.0000001

/-- Modelled from the spec: the sender's delta computation is not part of the header;
"on each tick it computes `(currentLat-lastLat)/resolution` etc." -/
def posDelta (current last resolution : ℚ) : ℚ := (current - last) / resolution

/-! ## Static validations and layout queries -/

/-- The `static_assert` block of the header: each entry pairs `sizeof(T)` with the
value it is asserted to equal, in source order (`RemoteMsgBaseTy` `8`,
`RemoteMsgSettingsTy` `40`, `RemoteAcDetailTy` `94+42`, `RemoteMsgAcDetailTy`
`102+42`, `RemoteAcPosUpdateTy` `20`, `RemoteMsgAcPosUpdateTy` `28`,
`RemoteMsgAcRemoveTy` `12`). -/
def staticAsserts : List (Nat × Nat) :=
  [ (RemoteMsgBaseTy.sizeof, 8)
  , (RemoteMsgSettingsTy.sizeof, 40)
  , (RemoteAcDetailTy.sizeof, 94 + 42)
  , (RemoteMsgAcDetailTy.sizeof, 102 + 42)
  , (RemoteAcPosUpdateTy.sizeof, 20)
  , (RemoteMsgAcPosUpdateTy.sizeof, 28)
  , (RemoteMsgAcRemoveTy.sizeof, 12) ]

/-- Bytes taken by the members that `RemoteMsgSettingsTy` declares itself, that is
its size without the inherited `RemoteMsgBaseTy`. -/
def RemoteMsgSettingsTy.ownSize : Nat := RemoteMsgSettingsTy.sizeof - RemoteMsgBaseTy.sizeof

/-- Width in bits of a bit-field member; an ordinary member counts as zero. -/
def Member.bitWidth : Member → Nat
  | .bytes _ => 0
  | .bits n => n

/-- Sum of the bit-field widths declared in `RemoteMsgSettingsTy`
(`logLvl` and the toggles `bLogMdlMatch` .. `bHaveTCASControl`). -/
def RemoteMsgSettingsTy.flagBits : Nat := (RemoteMsgSettingsTy.members.map Member.bitWidth).sum

/-- Bytes between the start of the first flag bit-field (member index 4, `logLvl`)
and the start of the member after the last one (index 12, `filler`). -/
def RemoteMsgSettingsTy.flagBytes : Nat :=
  offsetOf RemoteMsgBaseTy.sizeof RemoteMsgSettingsTy.members 12 -
    offsetOf RemoteMsgBaseTy.sizeof RemoteMsgSettingsTy.members 4

/-- Offset of `lat` (member index 8) within a `RemoteAcDetailTy` element. -/
def RemoteAcDetailTy.offset_lat : Nat := offsetOf 0 RemoteAcDetailTy.members 8

/-- Offset of `lon` (member index 9) within a `RemoteAcDetailTy` element. -/
def RemoteAcDetailTy.offset_lon : Nat := offsetOf 0 RemoteAcDetailTy.members 9

/-- Offset within a `RemoteMsgAcDetailTy` message of the byte at offset `off` of
the element `arr[k]`: the header, then `k` whole elements, then `off`. -/
def RemoteMsgAcDetailTy.elemOffset (k off : Nat) : Nat :=
  RemoteMsgBaseTy.sizeof + RemoteAcDetailTy.sizeof * k + off

/-- Precondition of `std::clamp(v, lo, hi)`: the behaviour is undefined if `lo`
is greater than `hi`. -/
def clampPre (lo hi : ℚ) : Prop := lo ≤ hi

instance (lo hi : ℚ) : Decidable (clampPre lo hi) := by
  unfold clampPre
  infer_instance

/-- Arguments `(v, lo, hi)` of the `std::clamp` call inside
`RemoteDataRefPackTy::pack`: `std::clamp<float>(f-minV,0.0f,range)`. -/
def RemoteDataRefPackTy.packClampArgs (self : RemoteDataRefPackTy) (f : ℚ) : ℚ × ℚ × ℚ :=
  (f - self.minV, 0, self.range)

/-- Quantization "truncate toward zero" in the words of the description: the
whole part of the magnitude, with the sign of the value. -/
def specTruncTowardZero (q : ℚ) : Int := if q < 0 then -⌊-q⌋ else ⌊q⌋

/-- Quantization "round to the nearest integer, half away from zero" in the words
of the description: the magnitude plus one half, floored, with the sign of the value. -/
def specRoundHalfAway (q : ℚ) : Int := if q < 0 then -⌊-q + 1 / 2⌋ else ⌊q + 1 / 2⌋

/-! ## Basic facts -/

theorem sizeof_RemoteMsgBaseTy : RemoteMsgBaseTy.sizeof = 8 := by decide

theorem sizeof_RemoteAcDetailTy : RemoteAcDetailTy.sizeof = 136 := by decide

theorem sizeof_RemoteAcPosUpdateTy : RemoteAcPosUpdateTy.sizeof = 20 := by decide

theorem sizeSub_of_le (a b : Nat) (ha : a < 2 ^ 64) (hb : b ≤ a) : sizeSub a b = a - b := by
  unfold sizeSub SIZE_BITS
  have h64 : (2 : Nat) ^ 64 = 18446744073709551616 := by norm_num
  rw [h64] at ha ⊢
  omega

theorem sizeSub_of_lt (a b : Nat) (hab : a < b) (hb : b < 2 ^ 64) :
    sizeSub a b = 2 ^ 64 + a - b := by
  unfold sizeSub SIZE_BITS
  have h64 : (2 : Nat) ^ 64 = 18446744073709551616 := by norm_num
  rw [h64] at hb ⊢
  omega

theorem clamp_of_nonpos (v hi : ℚ) (hv : v ≤ 0) (hhi : 0 ≤ hi) : clamp v 0 hi = 0 := by
  unfold clamp
  split_ifs <;> linarith

theorem clamp_of_ge (v hi : ℚ) (hv : hi ≤ v) (hhi : 0 ≤ hi) : clamp v 0 hi = hi := by
  unfold clamp
  split_ifs <;> linarith

theorem clamp_of_mem (v hi : ℚ) (h0 : 0 ≤ v) (h1 : v ≤ hi) : clamp v 0 hi = v := by
  unfold clamp
  split_ifs <;> linarith

theorem clamp_mem (v hi : ℚ) (hhi : 0 ≤ hi) : 0 ≤ clamp v 0 hi ∧ clamp v 0 hi ≤ hi := by
  unfold clamp
  split_ifs <;> constructor <;> linarith

theorem castUInt8_of_mem (q : ℚ) (h0 : 0 ≤ q) (h1 : q ≤ 255) :
    castUInt8 q = some ⌊q⌋.toNat ∧ 0 ≤ ⌊q⌋ ∧ ⌊q⌋ ≤ 255 := by
  have hf0 : 0 ≤ ⌊q⌋ := Int.floor_nonneg.mpr h0
  have hf1 : ⌊q⌋ ≤ 255 := by
    have : (⌊q⌋ : ℚ) ≤ 255 := (Int.floor_le q).trans h1
    exact_mod_cast this
  refine ⟨?_, hf0, hf1⟩
  unfold castUInt8 truncZero UINT8_MAX
  rw [if_pos h0, if_pos ⟨hf0, by exact_mod_cast hf1⟩]

/-- With a positive range, `pack` is the floor of the scaled clamped offset. -/
theorem pack_eq_floor (d : RemoteDataRefPackTy) (f : ℚ) (h : 0 < d.range) :
    d.pack f = some ⌊clamp (f - d.minV) 0 d.range * 255 / d.range⌋.toNat ∧
    0 ≤ ⌊clamp (f - d.minV) 0 d.range * 255 / d.range⌋ ∧
    ⌊clamp (f - d.minV) 0 d.range * 255 / d.range⌋ ≤ 255 := by
  obtain ⟨hc0, hc1⟩ := clamp_mem (f - d.minV) d.range h.le
  have hq0 : 0 ≤ clamp (f - d.minV) 0 d.range * 255 / d.range := by positivity
  have hq1 : clamp (f - d.minV) 0 d.range * 255 / d.range ≤ 255 := by
    rw [div_le_iff₀ h]
    nlinarith
  have hc := castUInt8_of_mem _ hq0 hq1
  refine ⟨?_, hc.2.1, hc.2.2⟩
  unfold RemoteDataRefPackTy.pack
  rw [if_neg h.ne.symm]
  simpa [UINT8_MAX] using hc.1

theorem truncZero_sub_abs_lt (q : ℚ) : |((truncZero q : Int) : ℚ) - q| < 1 := by
  unfold truncZero
  split_ifs with h
  · rw [abs_lt]
    constructor <;> linarith [Int.floor_le q, Int.lt_floor_add_one q]
  · rw [abs_lt]
    constructor <;> linarith [Int.le_ceil q, Int.ceil_lt_add_one q]

theorem truncZero_bounds (q : ℚ) (N : Int) (hq : |q| ≤ (N : ℚ)) :
    -N ≤ truncZero q ∧ truncZero q ≤ N := by
  obtain ⟨h1, h2⟩ := abs_le.mp hq
  unfold truncZero
  split_ifs with h
  · constructor
    · have : (0 : Int) ≤ ⌊q⌋ := Int.floor_nonneg.mpr h
      have hN : (0 : ℚ) ≤ (N : ℚ) := le_trans (abs_nonneg q) hq
      have hN' : (0 : Int) ≤ N := by exact_mod_cast hN
      omega
    · have : (⌊q⌋ : ℚ) ≤ (N : ℚ) := (Int.floor_le q).trans h2
      exact_mod_cast this
  · push_neg at h
    constructor
    · have h3 : ((-N : Int) : ℚ) ≤ ((⌈q⌉ : Int) : ℚ) := by
        push_cast
        exact h1.trans (Int.le_ceil q)
      exact_mod_cast h3
    · have hc : ⌈q⌉ ≤ 0 := Int.ceil_le.mpr (by exact_mod_cast h.le)
      have hN : (0 : ℚ) ≤ (N : ℚ) := le_trans (abs_nonneg q) hq
      have hN' : (0 : Int) ≤ N := by exact_mod_cast hN
      omega

theorem lround_sub_abs_le (q : ℚ) : |((lround q : Int) : ℚ) - q| ≤ 1 / 2 := by
  unfold lround
  split_ifs with h
  · rw [abs_le]
    constructor <;> linarith [Int.floor_le (q + 1 / 2), Int.lt_floor_add_one (q + 1 / 2)]
  · rw [abs_le]
    constructor <;> linarith [Int.le_ceil (q - 1 / 2), Int.ceil_lt_add_one (q - 1 / 2)]

theorem lround_bounds (q : ℚ) (N : Int) (hq : |q| ≤ (N : ℚ)) :
    -N ≤ lround q ∧ lround q ≤ N := by
  obtain ⟨h1, h2⟩ := abs_le.mp hq
  have hN : (0 : ℚ) ≤ (N : ℚ) := le_trans (abs_nonneg q) hq
  have hN' : (0 : Int) ≤ N := by exact_mod_cast hN
  unfold lround
  split_ifs with h
  · constructor
    · have : (0 : Int) ≤ ⌊q + 1 / 2⌋ := Int.floor_nonneg.mpr (by linarith)
      omega
    · have h3 : ⌊q + 1 / 2⌋ < N + 1 := by
        rw [Int.floor_lt]
        push_cast
        linarith
      omega
  · push_neg at h
    constructor
    · have h3 : -N - 1 < ⌈q - 1 / 2⌉ := by
        rw [Int.lt_ceil]
        push_cast
        linarith
      omega
    · have hc : ⌈q - 1 / 2⌉ ≤ 0 := Int.ceil_le.mpr (by push_cast; linarith)
      omega

theorem wrapInt16_of_mem (z : Int) (h0 : -32768 ≤ z) (h1 : z ≤ 32767) : wrapInt16 z = z := by
  unfold wrapInt16
  omega

/-- Truncating `x * 100` for `|x| ≤ 327.67` fits `int16_t` and is within 0.01 of `x`. -/
theorem pitch_roundtrip (x : ℚ) (hx : |x| ≤ 327.67) :
    castInt16 (x * 100) = some (truncZero (x * 100)) ∧
    |((truncZero (x * 100) : Int) : ℚ) / 100 - x| < 0.01 := by
  have hq : |x * 100| ≤ ((32767 : Int) : ℚ) := by
    rw [abs_mul]
    norm_num at hx ⊢
    linarith
  obtain ⟨hb0, hb1⟩ := truncZero_bounds _ _ hq
  constructor
  · unfold castInt16 INT16_MIN INT16_MAX
    rw [if_pos ⟨by omega, hb1⟩]
  · have h := abs_lt.mp (truncZero_sub_abs_lt (x * 100))
    rw [abs_lt]
    norm_num
    constructor <;> linarith [h.1, h.2]

/-- Rounding `x * 100` for `|x| ≤ 327.67` fits `int16_t` and is within 0.005 of `x`. -/
theorem roll_roundtrip (x : ℚ) (hx : |x| ≤ 327.67) :
    |((wrapInt16 (lround (x * 100)) : Int) : ℚ) / 100 - x| < 0.01 := by
  have hq : |x * 100| ≤ ((32767 : Int) : ℚ) := by
    rw [abs_mul]
    norm_num at hx ⊢
    linarith
  obtain ⟨hb0, hb1⟩ := lround_bounds _ _ hq
  rw [wrapInt16_of_mem _ (by omega) hb1]
  have h := abs_le.mp (lround_sub_abs_le (x * 100))
  rw [abs_lt]
  norm_num
  constructor <;> linarith [h.1, h.2]

/-- Truncation and rounding of the same value: the rounded integer is the
truncated one or its neighbour away from zero. -/
theorem truncZero_lround_cases (q : ℚ) :
    (0 ≤ truncZero q ∧ truncZero q ≤ lround q ∧ lround q ≤ truncZero q + 1) ∨
    (truncZero q ≤ 0 ∧ lround q ≤ truncZero q ∧ truncZero q ≤ lround q + 1) := by
  unfold truncZero lround
  split_ifs with h
  · left
    refine ⟨Int.floor_nonneg.mpr h, Int.floor_le_floor (by linarith), ?_⟩
    rw [← Int.floor_add_one]
    exact Int.floor_le_floor (by linarith)
  · right
    push_neg at h
    refine ⟨Int.ceil_le.mpr (by exact_mod_cast h.le), Int.ceil_le_ceil (by linarith), ?_⟩
    have h1 : ⌈q - 1⌉ ≤ ⌈q - 1 / 2⌉ := Int.ceil_le_ceil (by linarith)
    rw [Int.ceil_sub_one] at h1
    omega

theorem truncZero_eq_spec (q : ℚ) : truncZero q = specTruncTowardZero q := by
  unfold truncZero specTruncTowardZero
  split_ifs with h1 h2 h2
  · exact absurd h1 (not_le.mpr h2)
  · rfl
  · rw [Int.floor_neg, neg_neg]
  · exact absurd (not_le.mp h1) h2

theorem lround_eq_spec (q : ℚ) : lround q = specRoundHalfAway q := by
  unfold lround specRoundHalfAway
  split_ifs with h1 h2 h2
  · exact absurd h1 (not_le.mpr h2)
  · rfl
  · have : -q + 1 / 2 = -(q - 1 / 2) := by ring
    rw [this, Int.floor_neg, neg_neg]
  · exact absurd (not_le.mp h1) h2

/-- In the valid domain both setters store the exact quantized integers, which
differ by at most one, the roll value being the larger in magnitude. -/
theorem pitch_roll_stored (x : ℚ) (hx : |x| ≤ 327.67) :
    castInt16 (x * 100) = some (truncZero (x * 100)) ∧
    wrapInt16 (lround (x * 100)) = lround (x * 100) ∧
    |lround (x * 100) - truncZero (x * 100)| ≤ 1 ∧
    |truncZero (x * 100)| ≤ |lround (x * 100)| := by
  have hq : |x * 100| ≤ ((32767 : Int) : ℚ) := by
    rw [abs_mul]
    norm_num at hx ⊢
    linarith
  obtain ⟨hb0, hb1⟩ := lround_bounds _ _ hq
  refine ⟨(pitch_roundtrip x hx).1, wrapInt16_of_mem _ (by omega) hb1, ?_, ?_⟩
  · rcases truncZero_lround_cases (x * 100) with ⟨-, h2, h3⟩ | ⟨-, h2, h3⟩
    · rw [abs_le]
      constructor <;> omega
    · rw [abs_le]
      constructor <;> omega
  · rcases truncZero_lround_cases (x * 100) with ⟨h1, h2, -⟩ | ⟨h1, h2, -⟩
    · rw [abs_of_nonneg h1, abs_of_nonneg (h1.trans h2)]
      exact h2
    · rw [abs_of_nonpos h1, abs_of_nonpos (h2.trans h1)]
      omega

/-- With a positive range `unpack i` of a byte lies `range * i / 255` above `minV`,
inside `[0, range]`. -/
theorem unpack_offset (d : RemoteDataRefPackTy) (i : Nat) (h : 0 < d.range) (hi : i ≤ 255) :
    d.unpack i - d.minV = d.range * (i : ℚ) / 255 ∧
    0 ≤ d.range * (i : ℚ) / 255 ∧ d.range * (i : ℚ) / 255 ≤ d.range := by
  have hi' : (i : ℚ) ≤ 255 := by exact_mod_cast hi
  have hi0 : (0 : ℚ) ≤ (i : ℚ) := Nat.cast_nonneg i
  refine ⟨by unfold RemoteDataRefPackTy.unpack; ring, by positivity, ?_⟩
  rw [div_le_iff₀ (by norm_num)]
  nlinarith

/-! ## Element counts -/

/-- C1: for each of the three array messages `NumElem` inverts the framing: a
message of `8 + size*n` bytes (fitting in `size_t`) has exactly `n` elements,
with element sizes 136, 20 and 4. -/
theorem C1_NumElem_inverts_framing (n : Nat) :
    (8 + 136 * n < 2 ^ 64 → RemoteMsgAcDetailTy.NumElem (8 + 136 * n) = n) ∧
    (8 + 20 * n < 2 ^ 64 → RemoteMsgAcPosUpdateTy.NumElem (8 + 20 * n) = n) ∧
    (8 + 4 * n < 2 ^ 64 → RemoteMsgAcRemoveTy.NumElem (8 + 4 * n) = n) := by
  refine ⟨fun h => ?_, fun h => ?_, fun h => ?_⟩
  · unfold RemoteMsgAcDetailTy.NumElem
    rw [sizeof_RemoteMsgBaseTy, sizeof_RemoteAcDetailTy, sizeSub_of_le _ _ h (by omega)]
    omega
  · unfold RemoteMsgAcPosUpdateTy.NumElem
    rw [sizeof_RemoteMsgBaseTy, sizeof_RemoteAcPosUpdateTy, sizeSub_of_le _ _ h (by omega)]
    omega
  · unfold RemoteMsgAcRemoveTy.NumElem sizeof_XPMPPlaneID
    rw [sizeof_RemoteMsgBaseTy, sizeSub_of_le _ _ h (by omega)]
    omega

/-- Witness of C1 at `n = 3`: messages of 416, 68 and 20 bytes hold 3 elements. -/
theorem C1_NumElem_inverts_framing_witness :
    RemoteMsgAcDetailTy.NumElem (8 + 136 * 3) = 3 ∧
    RemoteMsgAcPosUpdateTy.NumElem (8 + 20 * 3) = 3 ∧
    RemoteMsgAcRemoveTy.NumElem (8 + 4 * 3) = 3 :=
  ⟨(C1_NumElem_inverts_framing 3).1 (by norm_num),
   (C1_NumElem_inverts_framing 3).2.1 (by norm_num),
   (C1_NumElem_inverts_framing 3).2.2 (by norm_num)⟩

/-- C2 fails as stated: for the received length 0 (shorter than the header) the
subtraction wraps and each `NumElem` yields a positive element count. -/
theorem C2_short_message_counterexample :
    ¬ (RemoteMsgAcDetailTy.NumElem 0 = 0) ∧
    ¬ (RemoteMsgAcPosUpdateTy.NumElem 0 = 0) ∧
    ¬ (RemoteMsgAcRemoveTy.NumElem 0 = 0) := by
  decide

/-- C2 (amended): `NumElem` performs no length check. For a length `len < 8` the
`size_t` subtraction wraps, and the result is the positive count
`(2^64 + len - 8) / size`; no elements are reported exactly for the lengths
`8 ≤ len < 8 + size` (size 136, 20, 4). -/
theorem C2_NumElem_short_message (len : Nat) (hlen : len < 2 ^ 64) :
    (len < 8 →
      RemoteMsgAcDetailTy.NumElem len = (2 ^ 64 + len - 8) / 136 ∧
      RemoteMsgAcPosUpdateTy.NumElem len = (2 ^ 64 + len - 8) / 20 ∧
      RemoteMsgAcRemoveTy.NumElem len = (2 ^ 64 + len - 8) / 4) ∧
    (RemoteMsgAcDetailTy.NumElem len = 0 ↔ 8 ≤ len ∧ len < 8 + 136) ∧
    (RemoteMsgAcPosUpdateTy.NumElem len = 0 ↔ 8 ≤ len ∧ len < 8 + 20) ∧
    (RemoteMsgAcRemoveTy.NumElem len = 0 ↔ 8 ≤ len ∧ len < 8 + 4) := by
  have h64 : (2 : Nat) ^ 64 = 18446744073709551616 := by norm_num
  unfold RemoteMsgAcDetailTy.NumElem RemoteMsgAcPosUpdateTy.NumElem RemoteMsgAcRemoveTy.NumElem
    sizeof_XPMPPlaneID
  rw [sizeof_RemoteMsgBaseTy, sizeof_RemoteAcDetailTy, sizeof_RemoteAcPosUpdateTy]
  rcases Nat.lt_or_ge len 8 with h | h
  · rw [sizeSub_of_lt _ _ h (by norm_num)]
    rw [h64] at hlen ⊢
    omega
  · rw [sizeSub_of_le _ _ hlen h]
    omega

/-- Witness of C2 (amended) at the length 7. -/
theorem C2_NumElem_short_message_witness :
    RemoteMsgAcDetailTy.NumElem 7 = (2 ^ 64 + 7 - 8) / 136 ∧
    RemoteMsgAcPosUpdateTy.NumElem 7 = (2 ^ 64 + 7 - 8) / 20 ∧
    RemoteMsgAcRemoveTy.NumElem 7 = (2 ^ 64 + 7 - 8) / 4 :=
  (C2_NumElem_short_message 7 (by norm_num)).1 (by norm_num)

/-- C3 fails as stated: lengths whose payload is not a whole number of elements
(145 = 8 + 136 + 1, 29 = 8 + 20 + 1, 13 = 8 + 4 + 1) get the count 1, the
floor of the quotient. -/
theorem C3_partial_element_counterexample :
    (8 ≤ 145 ∧ (145 - 8) % 136 ≠ 0 ∧ RemoteMsgAcDetailTy.NumElem 145 = 1) ∧
    (8 ≤ 29 ∧ (29 - 8) % 20 ≠ 0 ∧ RemoteMsgAcPosUpdateTy.NumElem 29 = 1) ∧
    (8 ≤ 13 ∧ (13 - 8) % 4 ≠ 0 ∧ RemoteMsgAcRemoveTy.NumElem 13 = 1) := by
  decide

/-- C3 (amended): for every length `len ≥ 8` that fits in `size_t`, `NumElem`
returns the floor of `(len - 8) / size`, whether or not the payload is a
whole number of elements: a trailing part `r < size` is ignored. -/
theorem C3_NumElem_floor (len : Nat) (hlen : len < 2 ^ 64) (h8 : 8 ≤ len) :
    RemoteMsgAcDetailTy.NumElem len = (len - 8) / 136 ∧
    RemoteMsgAcPosUpdateTy.NumElem len = (len - 8) / 20 ∧
    RemoteMsgAcRemoveTy.NumElem len = (len - 8) / 4 := by
  unfold RemoteMsgAcDetailTy.NumElem RemoteMsgAcPosUpdateTy.NumElem RemoteMsgAcRemoveTy.NumElem
    sizeof_XPMPPlaneID
  rw [sizeof_RemoteMsgBaseTy, sizeof_RemoteAcDetailTy, sizeof_RemoteAcPosUpdateTy,
    sizeSub_of_le _ _ hlen h8]
  exact ⟨rfl, rfl, rfl⟩

/-- Witness of C3 (amended) at the length 300 = 8 + 2 * 136 + 20. -/
theorem C3_NumElem_floor_witness :
    RemoteMsgAcDetailTy.NumElem 300 = (300 - 8) / 136 ∧
    RemoteMsgAcPosUpdateTy.NumElem 300 = (300 - 8) / 20 ∧
    RemoteMsgAcRemoveTy.NumElem 300 = (300 - 8) / 4 :=
  C3_NumElem_floor 300 (by norm_num) (by norm_num)

/-! ## DataRef packing -/

/-- C4: `pack` clamps before scaling. For a definition with `range > 0` and any
input `f`, `pack f` is defined and lies in `0..255`; it is 0 for `f ≤ minV`,
255 for `f ≥ minV + range`, and `floor((f - minV) * 255 / range)` in between. -/
theorem C4_pack_clamps_then_scales (d : RemoteDataRefPackTy) (f : ℚ) (h : 0 < d.range) :
    ∃ k : Nat, d.pack f = some k ∧ k ≤ 255 ∧
      (f ≤ d.minV → k = 0) ∧
      (d.minV + d.range ≤ f → k = 255) ∧
      (d.minV ≤ f → f ≤ d.minV + d.range →
        (k : Int) = ⌊(f - d.minV) * 255 / d.range⌋) := by
  obtain ⟨hp, h0, h1⟩ := pack_eq_floor d f h
  refine ⟨_, hp, by omega, fun hf => ?_, fun hf => ?_, fun hf1 hf2 => ?_⟩
  · rw [clamp_of_nonpos _ _ (by linarith) h.le]
    simp
  · have hq : d.range * 255 / d.range = ((255 : Int) : ℚ) := by
      field_simp
    rw [clamp_of_ge _ _ (by linarith) h.le, hq, Int.floor_intCast]
    rfl
  · rw [clamp_of_mem _ _ (by linarith) (by linarith)] at h0 ⊢
    exact Int.toNat_of_nonneg h0

/-- Witness of C4: the definition with `minV = -1`, `range = 2` at `f = 0`. -/
theorem C4_pack_clamps_then_scales_witness :
    ∃ k : Nat, RemoteDataRefPackTy.pack ⟨-1, 2⟩ 0 = some k ∧ k ≤ 255 ∧
      ((0 : ℚ) ≤ -1 → k = 0) ∧
      ((-1 : ℚ) + 2 ≤ 0 → k = 255) ∧
      ((-1 : ℚ) ≤ 0 → (0 : ℚ) ≤ -1 + 2 → (k : Int) = ⌊((0 : ℚ) - -1) * 255 / 2⌋) :=
  C4_pack_clamps_then_scales ⟨-1, 2⟩ 0 (by norm_num)

/-- C5: the quantization round trip of a dataRef value is within one resolution
unit and never overshoots. For `range > 0` and `minV ≤ x ≤ minV + range`,
`pack x` is defined, `|unpack (pack x) - x| < range / 255` and
`unpack (pack x) ≤ x`. -/
theorem C5_dataRef_roundtrip (d : RemoteDataRefPackTy) (x : ℚ) (h : 0 < d.range)
    (hlo : d.minV ≤ x) (hhi : x ≤ d.minV + d.range) :
    ∃ k : Nat, d.pack x = some k ∧
      |d.unpack k - x| < d.range / 255 ∧ d.unpack k ≤ x := by
  obtain ⟨hp, h0, -⟩ := pack_eq_floor d x h
  rw [clamp_of_mem _ _ (by linarith) (by linarith)] at hp h0
  refine ⟨_, hp, ?_⟩
  have hk : ((⌊(x - d.minV) * 255 / d.range⌋.toNat : Nat) : ℚ) =
      ((⌊(x - d.minV) * 255 / d.range⌋ : Int) : ℚ) := by
    have := Int.toNat_of_nonneg h0
    exact_mod_cast congrArg (fun z : Int => (z : ℚ)) this
  have hle := Int.floor_le ((x - d.minV) * 255 / d.range)
  have hlt := Int.lt_floor_add_one ((x - d.minV) * 255 / d.range)
  rw [le_div_iff₀ h] at hle
  rw [div_lt_iff₀ h] at hlt
  unfold RemoteDataRefPackTy.unpack
  rw [hk]
  have hup : d.minV + d.range * (⌊(x - d.minV) * 255 / d.range⌋ : ℚ) / 255 ≤ x := by
    rw [← sub_nonneg]
    have : x - (d.minV + d.range * (⌊(x - d.minV) * 255 / d.range⌋ : ℚ) / 255) =
        ((x - d.minV) * 255 - (⌊(x - d.minV) * 255 / d.range⌋ : ℚ) * d.range) / 255 := by ring
    rw [this]
    apply div_nonneg _ (by norm_num)
    linarith
  refine ⟨?_, hup⟩
  rw [abs_lt]
  constructor
  · rw [lt_sub_iff_add_lt, ← sub_pos]
    have : d.minV + d.range * (⌊(x - d.minV) * 255 / d.range⌋ : ℚ) / 255 -
        (-(d.range / 255) + x) =
        (((⌊(x - d.minV) * 255 / d.range⌋ : ℚ) + 1) * d.range - (x - d.minV) * 255) / 255 := by
      ring
    rw [this]
    apply div_pos _ (by norm_num)
    linarith
  · have : (0 : ℚ) < d.range / 255 := by positivity
    linarith

/-- Witness of C5: `minV = -1`, `range = 2`, `x = 1/3`. -/
theorem C5_dataRef_roundtrip_witness :
    ∃ k : Nat, RemoteDataRefPackTy.pack ⟨-1, 2⟩ (1 / 3) = some k ∧
      |RemoteDataRefPackTy.unpack ⟨-1, 2⟩ k - 1 / 3| < (2 : ℚ) / 255 ∧
      RemoteDataRefPackTy.unpack ⟨-1, 2⟩ k ≤ 1 / 3 :=
  C5_dataRef_roundtrip ⟨-1, 2⟩ (1 / 3) (by norm_num) (by norm_num) (by norm_num)

/-! ## Pitch and roll -/

/-- C6: the pitch and roll round trips are within one resolution unit. For
every angle `x` with `|x| ≤ 327.67`, `SetPitch x` is defined and
`|GetPitch - x| < 0.01`, and `|GetRoll (SetRoll x) - x| < 0.01`, in both
`RemoteAcDetailTy` and `RemoteAcPosUpdateTy`. -/
theorem C6_pitch_roll_roundtrip (a : RemoteAcDetailTy) (u : RemoteAcPosUpdateTy) (x : ℚ)
    (hx : |x| ≤ 327.67) :
    (∃ a1, a.SetPitch x = some a1 ∧ |a1.GetPitch - x| < 0.01) ∧
    |(a.SetRoll x).GetRoll - x| < 0.01 ∧
    (∃ u1, u.SetPitch x = some u1 ∧ |u1.GetPitch - x| < 0.01) ∧
    |(u.SetRoll x).GetRoll - x| < 0.01 := by
  obtain ⟨hc, hp⟩ := pitch_roundtrip x hx
  have hr := roll_roundtrip x hx
  refine ⟨⟨{ a with pitch := truncZero (x * 100) }, ?_, ?_⟩, ?_,
    ⟨{ u with pitch := truncZero (x * 100) }, ?_, ?_⟩, ?_⟩
  · rw [RemoteAcDetailTy.SetPitch, hc, Option.map_some']
  · simpa only [RemoteAcDetailTy.GetPitch] using hp
  · simpa only [RemoteAcDetailTy.GetRoll, RemoteAcDetailTy.SetRoll] using hr
  · rw [RemoteAcPosUpdateTy.SetPitch, hc, Option.map_some']
  · simpa only [RemoteAcPosUpdateTy.GetPitch] using hp
  · simpa only [RemoteAcPosUpdateTy.GetRoll, RemoteAcPosUpdateTy.SetRoll] using hr

/-- Witness of C6 at the angle `x = -1.006` on all-zero records. -/
theorem C6_pitch_roll_roundtrip_witness :
    (∃ a1, RemoteAcDetailTy.zero.SetPitch (-1.006) = some a1 ∧
      |a1.GetPitch - (-1.006)| < 0.01) ∧
    |(RemoteAcDetailTy.zero.SetRoll (-1.006)).GetRoll - (-1.006)| < 0.01 ∧
    (∃ u1, RemoteAcPosUpdateTy.zero.SetPitch (-1.006) = some u1 ∧
      |u1.GetPitch - (-1.006)| < 0.01) ∧
    |(RemoteAcPosUpdateTy.zero.SetRoll (-1.006)).GetRoll - (-1.006)| < 0.01 :=
  C6_pitch_roll_roundtrip RemoteAcDetailTy.zero RemoteAcPosUpdateTy.zero (-1.006)
    (by rw [abs_le]; norm_num)

/-- C7: the range of a packing definition is never zero. Constructing
`RemoteDataRefPackTy(_min, _max)` passes its assertion exactly when
`_max - _min ≠ 0`, that is when `_min ≠ _max`; every constructed definition
has `minV = _min` and a non-zero `range = _max - _min`, and its `pack` divides
by that non-zero range. -/
theorem C7_range_never_zero (_min _max : ℚ) :
    ((RemoteDataRefPackTy.ctor _min _max).isSome ↔ _max - _min ≠ 0) ∧
    ((RemoteDataRefPackTy.ctor _min _max).isSome ↔ _min ≠ _max) ∧
    (∀ d, RemoteDataRefPackTy.ctor _min _max = some d →
      d.minV = _min ∧ d.range = _max - _min ∧ d.range ≠ 0 ∧
      ∀ f, d.pack f = castUInt8 (clamp (f - d.minV) 0 d.range * 255 / d.range)) := by
  unfold RemoteDataRefPackTy.ctor
  by_cases h : _max - _min = 0
  · have h2 : _min = _max := by linarith
    simp [h, h2]
  · have h2 : _min ≠ _max := fun e => h (by rw [e]; ring)
    simp only [ne_eq, h, not_false_eq_true, if_true, Option.isSome_some, true_iff, h2,
      Option.some.injEq, true_and]
    intro d hd
    subst hd
    refine ⟨rfl, rfl, h, fun f => ?_⟩
    unfold RemoteDataRefPackTy.pack
    simp [h, UINT8_MAX]

/-- Witness of C7: `RemoteDataRefPackTy(-1, 1)` is constructed with range 2. -/
theorem C7_range_never_zero_witness :
    RemoteDataRefPackTy.ctor (-1) 1 = some ⟨-1, 2⟩ ∧ (⟨-1, 2⟩ : RemoteDataRefPackTy).range ≠ 0 :=
  have hc : RemoteDataRefPackTy.ctor (-1) 1 = some ⟨-1, 2⟩ := by
    unfold RemoteDataRefPackTy.ctor
    norm_num
  ⟨hc, ((C7_range_never_zero (-1) 1).2.2 ⟨-1, 2⟩ hc).2.2.1⟩

/-! ## Position update resolutions -/

/-- C8: the position-update scenario evaluated with the resolutions of the code.
From lat 47.123456, lon 8.123456, alt 2500.00 ft to lat 47.1234565,
lon 8.1234560, alt 2500.50 ft after 0.25 s, `(current - last) / resolution`
gives `dLat = 50` (not 5), `dLon = 0`, `dAlt_ft = 50` and `dTime = 2500`;
`dLat = 5` results from the unit 0.0000001 degree that the header documents. -/
theorem C8_scenario_deltas :
    posDelta 47.1234565 47.123456 REMOTE_DEGREE_RES = 50 ∧
    posDelta 47.1234565 47.123456 REMOTE_DEGREE_RES ≠ 5 ∧
    posDelta 8.1234560 8.123456 REMOTE_DEGREE_RES = 0 ∧
    posDelta 2500.50 2500.00 REMOTE_ALT_FT_RES = 50 ∧
    posDelta 0.25 0 REMOTE_TIME_RES = 2500 ∧
    posDelta 47.1234565 47.123456 DOC_DEGREE_UNIT = 5 := by
  unfold posDelta REMOTE_DEGREE_RES REMOTE_ALT_FT_RES REMOTE_TIME_RES DOC_DEGREE_UNIT
  norm_num

/-- C9: the resolution constant for degree updates is 0.00000001 (1e-8), a tenth
of the unit 0.0000001 (1e-7) that the header documents for `dLat` and `dLon`. -/
theorem C9_degree_resolution_constant :
    REMOTE_DEGREE_RES = 1 / 10 ^ 8 ∧
    DOC_DEGREE_UNIT = 1 / 10 ^ 7 ∧
    REMOTE_DEGREE_RES ≠ DOC_DEGREE_UNIT ∧
    DOC_DEGREE_UNIT = 10 * REMOTE_DEGREE_RES := by
  unfold REMOTE_DEGREE_RES DOC_DEGREE_UNIT
  norm_num

/-- C10: the maximum representable differences are the resolution times the
maximum of the integer field: 3.2767e-4 degrees, 327.67 ft and 6.5535 s.
A difference `d` (degrees) or `a` (feet) of at most that magnitude scales to
a value in `[-32767, 32767]`, and a time `0 ≤ t ≤ 6.5535` to `[0, 65535]`. -/
theorem C10_max_diff_fits_field (d a t : ℚ) :
    REMOTE_MAX_DIFF_DEGREE = 0.00032767 ∧
    REMOTE_MAX_DIFF_ALT_FT = 327.67 ∧
    REMOTE_MAX_DIFF_TIME = 6.5535 ∧
    (|d| ≤ REMOTE_MAX_DIFF_DEGREE →
      -32767 ≤ d / REMOTE_DEGREE_RES ∧ d / REMOTE_DEGREE_RES ≤ 32767) ∧
    (|a| ≤ REMOTE_MAX_DIFF_ALT_FT →
      -32767 ≤ a / REMOTE_ALT_FT_RES ∧ a / REMOTE_ALT_FT_RES ≤ 32767) ∧
    (0 ≤ t → t ≤ REMOTE_MAX_DIFF_TIME →
      0 ≤ t / REMOTE_TIME_RES ∧ t / REMOTE_TIME_RES ≤ 65535) := by
  unfold REMOTE_MAX_DIFF_DEGREE REMOTE_MAX_DIFF_ALT_FT REMOTE_MAX_DIFF_TIME
    REMOTE_DEGREE_RES REMOTE_ALT_FT_RES REMOTE_TIME_RES INT16_MAX UINT16_MAX
  refine ⟨by norm_num, by norm_num, by norm_num, fun h => ?_, fun h => ?_, fun h0 h1 => ?_⟩
  · obtain ⟨h1, h2⟩ := abs_le.mp h
    norm_num at h1 h2 ⊢
    constructor <;> linarith
  · obtain ⟨h1, h2⟩ := abs_le.mp h
    norm_num at h1 h2 ⊢
    constructor <;> linarith
  · norm_num at h1 ⊢
    constructor <;> linarith

/-- Witness of C10 at `d = -0.0003`, `a = 327.67` and `t = 6.5535`. -/
theorem C10_max_diff_fits_field_witness :
    (-32767 ≤ (-0.0003 : ℚ) / REMOTE_DEGREE_RES ∧ (-0.0003 : ℚ) / REMOTE_DEGREE_RES ≤ 32767) ∧
    (-32767 ≤ (327.67 : ℚ) / REMOTE_ALT_FT_RES ∧ (327.67 : ℚ) / REMOTE_ALT_FT_RES ≤ 32767) ∧
    (0 ≤ (6.5535 : ℚ) / REMOTE_TIME_RES ∧ (6.5535 : ℚ) / REMOTE_TIME_RES ≤ 65535) :=
  ⟨(C10_max_diff_fits_field (-0.0003) 327.67 6.5535).2.2.2.1
      (by unfold REMOTE_MAX_DIFF_DEGREE REMOTE_DEGREE_RES INT16_MAX; rw [abs_le]; norm_num),
   (C10_max_diff_fits_field (-0.0003) 327.67 6.5535).2.2.2.2.1
      (by unfold REMOTE_MAX_DIFF_ALT_FT REMOTE_ALT_FT_RES INT16_MAX; rw [abs_le]; norm_num),
   (C10_max_diff_fits_field (-0.0003) 327.67 6.5535).2.2.2.2.2 (by norm_num)
      (by unfold REMOTE_MAX_DIFF_TIME REMOTE_TIME_RES UINT16_MAX; norm_num)⟩

/-! ## Structure sizes and alignment -/

/-- C11: under tight packing the declared members of every wire structure sum to
the size its `static_assert` states: `RemoteMsgBaseTy` 8, `RemoteMsgSettingsTy`
40, `RemoteAcDetailTy` 94 + 42 = 136, `RemoteMsgAcDetailTy` 144,
`RemoteAcPosUpdateTy` 20, `RemoteMsgAcPosUpdateTy` 28 and
`RemoteMsgAcRemoveTy` 12, so that every static validation holds. -/
theorem C11_sizes_match_static_asserts :
    RemoteMsgBaseTy.sizeof = 8 ∧
    RemoteMsgSettingsTy.sizeof = 40 ∧
    RemoteAcDetailTy.sizeof = 94 + 42 ∧ RemoteAcDetailTy.sizeof = 136 ∧
    RemoteMsgAcDetailTy.sizeof = 144 ∧
    RemoteAcPosUpdateTy.sizeof = 20 ∧
    RemoteMsgAcPosUpdateTy.sizeof = 28 ∧
    RemoteMsgAcRemoveTy.sizeof = 12 ∧
    (∀ p ∈ staticAsserts, p.1 = p.2) := by
  decide

/-- C12 fails as stated: the size of `RemoteMsgSettingsTy` including its inherited
header is not 48, and its own members do not occupy 40 bytes. -/
theorem C12_settings_size_counterexample :
    RemoteMsgSettingsTy.sizeof ≠ 48 ∧ RemoteMsgSettingsTy.ownSize ≠ 40 := by
  decide

/-- C12 (amended): a Settings message is 8 + 32 = 40 bytes on the wire. The size of
`RemoteMsgSettingsTy` including its inherited 8-byte header is 40 and its own
members occupy 32 bytes: the name at offset 8 (16 bytes), the label distance
at 24, the two type designators at 28 and 32, the flags at 36 (2 bytes) and
the 2-byte filler at 38. -/
theorem C12_settings_size :
    RemoteMsgSettingsTy.sizeof = 40 ∧
    RemoteMsgBaseTy.sizeof = 8 ∧
    RemoteMsgSettingsTy.ownSize = 32 ∧
    RemoteMsgSettingsTy.sizeof = RemoteMsgBaseTy.sizeof + RemoteMsgSettingsTy.ownSize ∧
    [0, 1, 2, 3, 4, 12, 13].map (offsetOf RemoteMsgBaseTy.sizeof RemoteMsgSettingsTy.members) =
      [8, 24, 28, 32, 36, 38, 40] := by
  decide

/-- C13 fails as stated: the bit-field widths of the Settings flags sum to more
than 8 bits, so they do not fit one byte. -/
theorem C13_flag_bits_counterexample : ¬ (RemoteMsgSettingsTy.flagBits ≤ 8) := by
  decide

/-- C13 (amended): the Settings flags are the 3-bit logging level followed by 7
one-bit toggles; their widths sum to 10 bits, which occupy two bytes (offsets
36 and 37) before the 2-byte filler. -/
theorem C13_flag_bits :
    (RemoteMsgSettingsTy.members.drop 4).take 8 =
      [.bits 3, .bits 1, .bits 1, .bits 1, .bits 1, .bits 1, .bits 1, .bits 1] ∧
    RemoteMsgSettingsTy.flagBits = 10 ∧
    RemoteMsgSettingsTy.flagBytes = 2 ∧
    offsetOf RemoteMsgBaseTy.sizeof RemoteMsgSettingsTy.members 4 = 36 ∧
    offsetOf RemoteMsgBaseTy.sizeof RemoteMsgSettingsTy.members 12 = 38 := by
  decide

/-- C14: in an Aircraft Detail record the members before `lat` total 64 bytes,
`lat` is at offset 64 and `lon` at offset 72, the record size 136 is a
multiple of 8, and in a message with the 8-byte header the `lat` and `lon`
of every element `k` lie at the offsets `8 + 136 * k + 64` and
`8 + 136 * k + 72`, both divisible by 8. -/
theorem C14_lat_lon_aligned (k : Nat) :
    sizeofPacked 0 (RemoteAcDetailTy.members.take 8) = 64 ∧
    RemoteAcDetailTy.offset_lat = 64 ∧
    RemoteAcDetailTy.offset_lon = 72 ∧
    RemoteAcDetailTy.sizeof = 136 ∧ RemoteAcDetailTy.sizeof % 8 = 0 ∧
    RemoteMsgAcDetailTy.elemOffset k RemoteAcDetailTy.offset_lat = 8 + 136 * k + 64 ∧
    RemoteMsgAcDetailTy.elemOffset k RemoteAcDetailTy.offset_lon = 8 + 136 * k + 72 ∧
    RemoteMsgAcDetailTy.elemOffset k RemoteAcDetailTy.offset_lat % 8 = 0 ∧
    RemoteMsgAcDetailTy.elemOffset k RemoteAcDetailTy.offset_lon % 8 = 0 := by
  have h1 : sizeofPacked 0 (RemoteAcDetailTy.members.take 8) = 64 := by decide
  have h2 : RemoteAcDetailTy.offset_lat = 64 := by decide
  have h3 : RemoteAcDetailTy.offset_lon = 72 := by decide
  refine ⟨h1, h2, h3, sizeof_RemoteAcDetailTy, by decide, ?_, ?_, ?_, ?_⟩ <;>
    unfold RemoteMsgAcDetailTy.elemOffset <;>
    rw [sizeof_RemoteMsgBaseTy, sizeof_RemoteAcDetailTy] <;>
    omega

/-- C15: the sizes in the static validations taken modulo 8. `RemoteMsgBaseTy` (8),
`RemoteMsgSettingsTy` (40), `RemoteAcDetailTy` (136) and `RemoteMsgAcDetailTy`
(144) are multiples of 8; `RemoteAcPosUpdateTy` (20), `RemoteMsgAcPosUpdateTy`
(28) and `RemoteMsgAcRemoveTy` (12) leave the remainder 4. -/
theorem C15_sizes_mod_eight :
    staticAsserts.map (fun p => p.1) = [8, 40, 136, 144, 20, 28, 12] ∧
    staticAsserts.map (fun p => p.2 % 8) = [0, 0, 0, 0, 4, 4, 4] ∧
    RemoteAcPosUpdateTy.sizeof % 8 ≠ 0 ∧
    RemoteMsgAcPosUpdateTy.sizeof % 8 ≠ 0 ∧
    RemoteMsgAcRemoveTy.sizeof % 8 ≠ 0 ∧
    ¬ (∀ p ∈ staticAsserts, p.2 % 8 = 0) := by
  decide

/-! ## DataRef packing: wire values -/

/-- C16: `pack` is a left inverse of `unpack` on wire values. For a definition
with `range > 0` and every byte `i` in `0..255`, `pack (unpack i) = i`. -/
theorem C16_pack_unpack (d : RemoteDataRefPackTy) (i : Nat) (h : 0 < d.range)
    (hi : i ≤ 255) : d.pack (d.unpack i) = some i := by
  obtain ⟨hp, -, -⟩ := pack_eq_floor d (d.unpack i) h
  obtain ⟨ho, h0, h1⟩ := unpack_offset d i h hi
  rw [ho, clamp_of_mem _ _ h0 h1] at hp
  have hq : d.range * (i : ℚ) / 255 * 255 / d.range = ((i : Nat) : ℚ) := by
    field_simp
  rw [hq, Int.floor_natCast, Int.toNat_natCast] at hp
  exact hp

/-- Witness of C16: `minV = -1`, `range = 2` and the byte 170. -/
theorem C16_pack_unpack_witness :
    RemoteDataRefPackTy.pack ⟨-1, 2⟩ (RemoteDataRefPackTy.unpack ⟨-1, 2⟩ 170) = some 170 :=
  C16_pack_unpack ⟨-1, 2⟩ 170 (by norm_num) (by norm_num)

/-- C17: pitch and roll are quantized differently. `SetPitch` stores `_p * 100`
truncated toward zero, `SetRoll` stores `_r * 100` rounded to the nearest
integer, half away from zero. At `x = 1.006` they store 100 and 101. For
every `x` with `|x| ≤ 327.67` the two stored integers differ by at most 1
and the stored roll is at least the stored pitch in magnitude, in both
`RemoteAcDetailTy` and `RemoteAcPosUpdateTy`. -/
theorem C17_pitch_truncates_roll_rounds (a : RemoteAcDetailTy) (u : RemoteAcPosUpdateTy)
    (x : ℚ) (hx : |x| ≤ 327.67) :
    ((RemoteAcDetailTy.zero.SetPitch 1.006).map (fun r => r.pitch) = some 100 ∧
      (RemoteAcDetailTy.zero.SetRoll 1.006).roll = 101 ∧
      (RemoteAcPosUpdateTy.zero.SetPitch 1.006).map (fun r => r.pitch) = some 100 ∧
      (RemoteAcPosUpdateTy.zero.SetRoll 1.006).roll = 101) ∧
    (∃ a1, a.SetPitch x = some a1 ∧
      a1.pitch = specTruncTowardZero (x * 100) ∧
      (a.SetRoll x).roll = specRoundHalfAway (x * 100) ∧
      |(a.SetRoll x).roll - a1.pitch| ≤ 1 ∧ |a1.pitch| ≤ |(a.SetRoll x).roll|) ∧
    (∃ u1, u.SetPitch x = some u1 ∧
      u1.pitch = specTruncTowardZero (x * 100) ∧
      (u.SetRoll x).roll = specRoundHalfAway (x * 100) ∧
      |(u.SetRoll x).roll - u1.pitch| ≤ 1 ∧ |u1.pitch| ≤ |(u.SetRoll x).roll|) := by
  have hex : |(1.006 : ℚ)| ≤ 327.67 := by
    rw [abs_le]
    norm_num
  obtain ⟨ec, ew, -, -⟩ := pitch_roll_stored 1.006 hex
  have et : truncZero ((1.006 : ℚ) * 100) = 100 := by
    rw [truncZero_eq_spec]
    unfold specTruncTowardZero
    rw [if_neg (by norm_num), Int.floor_eq_iff]
    norm_num
  have er : lround ((1.006 : ℚ) * 100) = 101 := by
    rw [lround_eq_spec]
    unfold specRoundHalfAway
    rw [if_neg (by norm_num), Int.floor_eq_iff]
    norm_num
  obtain ⟨hc, hw, hd, hm⟩ := pitch_roll_stored x hx
  refine ⟨⟨?_, ?_, ?_, ?_⟩,
    ⟨{ a with pitch := truncZero (x * 100) }, ?_, truncZero_eq_spec _, ?_, ?_, ?_⟩,
    ⟨{ u with pitch := truncZero (x * 100) }, ?_, truncZero_eq_spec _, ?_, ?_, ?_⟩⟩
  · rw [RemoteAcDetailTy.SetPitch, ec, Option.map_some', Option.map_some', et]
  · show wrapInt16 (lround ((1.006 : ℚ) * 100)) = 101
    rw [ew, er]
  · rw [RemoteAcPosUpdateTy.SetPitch, ec, Option.map_some', Option.map_some', et]
  · show wrapInt16 (lround ((1.006 : ℚ) * 100)) = 101
    rw [ew, er]
  · rw [RemoteAcDetailTy.SetPitch, hc, Option.map_some']
  · show wrapInt16 (lround (x * 100)) = specRoundHalfAway (x * 100)
    rw [hw, lround_eq_spec]
  · simpa only [RemoteAcDetailTy.SetRoll, hw] using hd
  · simpa only [RemoteAcDetailTy.SetRoll, hw] using hm
  · rw [RemoteAcPosUpdateTy.SetPitch, hc, Option.map_some']
  · show wrapInt16 (lround (x * 100)) = specRoundHalfAway (x * 100)
    rw [hw, lround_eq_spec]
  · simpa only [RemoteAcPosUpdateTy.SetRoll, hw] using hd
  · simpa only [RemoteAcPosUpdateTy.SetRoll, hw] using hm

/-- Witness of C17 at the angle `x = -1.006` on all-zero records. -/
theorem C17_pitch_truncates_roll_rounds_witness :
    ∃ a1, RemoteAcDetailTy.zero.SetPitch (-1.006) = some a1 ∧
      a1.pitch = specTruncTowardZero (-1.006 * 100) ∧
      (RemoteAcDetailTy.zero.SetRoll (-1.006)).roll = specRoundHalfAway (-1.006 * 100) ∧
      |(RemoteAcDetailTy.zero.SetRoll (-1.006)).roll - a1.pitch| ≤ 1 ∧
      |a1.pitch| ≤ |(RemoteAcDetailTy.zero.SetRoll (-1.006)).roll| :=
  (C17_pitch_truncates_roll_rounds RemoteAcDetailTy.zero RemoteAcPosUpdateTy.zero (-1.006)
    (by rw [abs_le]; norm_num)).2.1

/-- C18: the assertion `range != 0` of the constructor does not exclude a negative
range. `RemoteDataRefPackTy(1, -1)` is accepted with range -2, and for all
arguments with `_max < _min` the definition is constructed with `range < 0`;
the clamp in its `pack` is then called, for every input `f`, with the lower
bound 0 greater than the upper bound `range`, against the precondition
`lo ≤ hi` of the clamp. -/
theorem C18_negative_range_accepted (_min _max : ℚ) (h : _max < _min) :
    RemoteDataRefPackTy.ctor 1 (-1) = some ⟨1, -2⟩ ∧
    ∃ d, RemoteDataRefPackTy.ctor _min _max = some d ∧ d.range < 0 ∧
      ∀ f, d.packClampArgs f = (f - d.minV, 0, d.range) ∧
        (d.packClampArgs f).2.2 < (d.packClampArgs f).2.1 ∧
        ¬ clampPre (d.packClampArgs f).2.1 (d.packClampArgs f).2.2 ∧
        d.pack f = castUInt8 (clamp (d.packClampArgs f).1 (d.packClampArgs f).2.1
          (d.packClampArgs f).2.2 * 255 / d.range) := by
  have hr : _max - _min < 0 := by linarith
  constructor
  · unfold RemoteDataRefPackTy.ctor
    norm_num
  · refine ⟨⟨_min, _max - _min⟩, ?_, hr, fun f => ⟨rfl, hr, ?_, ?_⟩⟩
    · unfold RemoteDataRefPackTy.ctor
      simp [hr.ne]
    · unfold clampPre RemoteDataRefPackTy.packClampArgs
      exact not_le.mpr hr
    · unfold RemoteDataRefPackTy.pack RemoteDataRefPackTy.packClampArgs
      simp [hr.ne, UINT8_MAX]

/-- Witness of C18: the arguments `_min = 1`, `_max = -1`. -/
theorem C18_negative_range_accepted_witness :
    ∃ d, RemoteDataRefPackTy.ctor 1 (-1) = some d ∧ d.range < 0 ∧
      ∀ f, d.packClampArgs f = (f - d.minV, 0, d.range) ∧
        (d.packClampArgs f).2.2 < (d.packClampArgs f).2.1 ∧
        ¬ clampPre (d.packClampArgs f).2.1 (d.packClampArgs f).2.2 ∧
        d.pack f = castUInt8 (clamp (d.packClampArgs f).1 (d.packClampArgs f).2.1
          (d.packClampArgs f).2.2 * 255 / d.range) :=
  (C18_negative_range_accepted 1 (-1) (by norm_num)).2

/-- C19: `unpack` stays inside the value range of the channel and reaches both
ends. For a definition with `range > 0` and a byte `i` in `0..255`,
`minV ≤ unpack i ≤ minV + range`, `unpack 0 = minV`,
`unpack 255 = minV + range`, and `unpack` is strictly increasing. -/
theorem C19_unpack_range (d : RemoteDataRefPackTy) (i j : Nat) (h : 0 < d.range)
    (hi : i ≤ 255) :
    d.minV ≤ d.unpack i ∧ d.unpack i ≤ d.minV + d.range ∧
    d.unpack 0 = d.minV ∧ d.unpack 255 = d.minV + d.range ∧
    (i < j → d.unpack i < d.unpack j) := by
  obtain ⟨ho, h0, h1⟩ := unpack_offset d i h hi
  refine ⟨by linarith, by linarith, ?_, ?_, fun hij => ?_⟩
  · unfold RemoteDataRefPackTy.unpack
    simp
  · unfold RemoteDataRefPackTy.unpack
    push_cast
    ring
  · have hij' : (i : ℚ) < (j : ℚ) := by exact_mod_cast hij
    unfold RemoteDataRefPackTy.unpack
    have : d.range * (i : ℚ) / 255 < d.range * (j : ℚ) / 255 := by
      apply div_lt_div_of_pos_right _ (by norm_num)
      exact mul_lt_mul_of_pos_left hij' h
    linarith

/-- Witness of C19: `minV = -1`, `range = 2` and the bytes 170 and 171. -/
theorem C19_unpack_range_witness :
    (-1 : ℚ) ≤ RemoteDataRefPackTy.unpack ⟨-1, 2⟩ 170 ∧
    RemoteDataRefPackTy.unpack ⟨-1, 2⟩ 170 ≤ -1 + 2 ∧
    RemoteDataRefPackTy.unpack ⟨-1, 2⟩ 0 = -1 ∧
    RemoteDataRefPackTy.unpack ⟨-1, 2⟩ 255 = -1 + 2 ∧
    (170 < 171 → RemoteDataRefPackTy.unpack ⟨-1, 2⟩ 170 < RemoteDataRefPackTy.unpack ⟨-1, 2⟩ 171) :=
  C19_unpack_range ⟨-1, 2⟩ 170 171 (by norm_num) (by norm_num)

end XPMP2
